import Mathlib

set_option maxRecDepth 8000

/-!
Shallow embedding of the LegalGuard ID frontend controller
(`src/unnamed/part_000`, with `src/frontend/app.js` as an earlier variant of
the same logic).  Strings are modelled as `List Char` (JS strings restricted
to the Basic Multilingual Plane, where `.length`/`substring` agree with
code-point counting).  Nullable JS values are `Option`; the JS falsiness test
`if (!text)` on a string is "none or empty".  Whitespace classes (`trim`,
regex `\s`) are modelled over the ASCII whitespace characters.
-/

/-- Boolean whitespace test used for `String.prototype.trim` and the regex
class `\s` (restricted to ASCII whitespace). -/
def isWsB (c : Char) : Bool :=
  c == ' ' || c == '\t' || c == '\n' || c == '\r' || c == '\x0b' || c == '\x0c'

/-- JS `text.trim()`: strip leading and trailing whitespace. -/
def jsTrim (l : List Char) : List Char :=
  ((l.dropWhile isWsB).reverse.dropWhile isWsB).reverse

/-- One global single-character `String.prototype.replace(/c/g, rep)` pass:
every occurrence of the character `c` is expanded to the string `rep`. -/
def expandChar (c : Char) (rep : List Char) : List Char → List Char
  | [] => []
  | x :: xs => (if x = c then rep else [x]) ++ expandChar c rep xs

/-- HTML text-node serialization of one character, as produced by the DOM
`div.textContent = ...; div.innerHTML` trick in `escapeHtml`
(part_000 lines 689-694): `&`, `<`, `>` and U+00A0 are escaped. -/
def escChar (c : Char) : List Char :=
  if c = '&' then ("&amp;".data)
  else if c = '<' then ("&lt;".data)
  else if c = '>' then ("&gt;".data)
  else if c = '\u00A0' then ("&nbsp;".data)
  else [c]

/-- Serialization of a whole string, character by character. -/
def escapeList : List Char → List Char
  | [] => []
  | c :: cs => escChar c ++ escapeList cs

/-- `escapeHtml(text)` (part_000 lines 689-694): `if (!text) return ''`,
otherwise the DOM text-node serialization of `text`. -/
def escapeHtml (text : Option (List Char)) : List Char :=
  match text with
  | none => []
  | some t => escapeList t

/-- JS `a || b` on a possibly-null string `a` with string fallback `b`:
`none` and the empty string are falsy. -/
def falsyOr (a : Option (List Char)) (b : List Char) : List Char :=
  match a with
  | none => b
  | some v => if v = [] then b else v

/-- Index of the first occurrence of `t` in `s` (the match position used by
`String.prototype.replace` with a plain-string pattern). -/
def firstOccIdx (s t : List Char) : Option Nat :=
  if t.isPrefixOf s then some 0
  else
    match s with
    | [] => none
    | _ :: s' => (firstOccIdx s' t).map (· + 1)

/-- `s.replace(t, r)` with a plain-string pattern: replace only the first
occurrence of `t` (the replacement is inserted literally; `$`-patterns in the
replacement string are not modelled). -/
def replaceFirst (s t r : List Char) : List Char :=
  match firstOccIdx s t with
  | none => s
  | some k => s.take k ++ r ++ s.drop (k + t.length)

/-- Boolean substring test (used to state facts about rendered output). -/
def containsSub (s t : List Char) : Bool :=
  (firstOccIdx s t).isSome

/-- `truncateText(text, maxLength)` (part_000 lines 696-700). -/
def truncateText (text : Option (List Char)) (maxLength : Nat) : List Char :=
  match text with
  | none => []
  | some t =>
    if t = [] then []
    else if t.length ≤ maxLength then t
    else t.take maxLength ++ ("...".data)

/-- `formatDocumentText(text)` (part_000 lines 679-687): four sequential
global replaces, `<` → `&lt;`, then `>` → `&gt;`, then newline → `<br>`,
then tab → four `&nbsp;`. -/
def formatDocumentText (text : Option (List Char)) : List Char :=
  match text with
  | none => []
  | some t =>
    if t = [] then []
    else
      expandChar '\t' ("&nbsp;&nbsp;&nbsp;&nbsp;".data)
        (expandChar '\n' ("<br>".data)
          (expandChar '>' ("&gt;".data)
            (expandChar '<' ("&lt;".data) t)))

/-- One cleanup issue as consumed by `renderCleanupResults`. -/
structure CleanupIssue where
  type : Option (List Char)
  location : Option (List Char)
  original_text : Option (List Char)
  rule : Option (List Char)
  deriving DecidableEq

/-- `getIssueHighlightClass(type)` (part_000 lines 655-665). -/
def getIssueHighlightClass (ty : Option (List Char)) : List Char :=
  match ty with
  | none => "highlight-general".data
  | some k =>
    if k = ("terminology".data) then ("highlight-terminology".data)
    else if k = ("deletion".data) then ("highlight-deletion".data)
    else if k = ("formatting".data) then ("highlight-formatting".data)
    else if k = ("party_label".data) then ("highlight-party".data)
    else if k = ("arbitration".data) then ("highlight-arbitration".data)
    else if k = ("signature".data) then ("highlight-signature".data)
    else "highlight-general".data

/-- The `<mark ...>` replacement string built for one issue
(part_000 lines 601-606). -/
def markWrapFor (i : CleanupIssue) : List Char :=
  ("<mark class=\"".data) ++ getIssueHighlightClass i.type
    ++ ("\" title=\"".data) ++ escapeHtml i.rule
    ++ ("\">".data) ++ escapeHtml i.original_text
    ++ ("</mark>".data)

/-- One iteration of the `issues.forEach` loop in `renderCleanupResults`
(part_000 lines 599-608): skip falsy `original_text`, otherwise replace its
first occurrence in the running text with the mark-wrapped version. -/
def applyIssue (text : List Char) (i : CleanupIssue) : List Char :=
  match i.original_text with
  | none => text
  | some t => if t = [] then text else replaceFirst text t (markWrapFor i)

/-- The whole `issues.forEach` loop, in issue-list order. -/
def annotateIssues (text : List Char) (issues : List CleanupIssue) : List Char :=
  issues.foldl applyIssue text

/-- The CleanupResult shape consumed by the cleanup/editor code. -/
structure CleanupResultModel where
  original_content : Option (List Char)
  cleaned_indonesian : Option (List Char)
  cleaned_english : Option (List Char)
  edited_indonesian : Option (List Char)
  edited_english : Option (List Char)
  issues : List CleanupIssue
  deriving DecidableEq

/-- The HTML string assigned to the original-content pane
(part_000 lines 596-610): highlight replacements run on the raw
`original_content`, and then `formatDocumentText` is applied to the whole
annotated string inside the `<pre>` template. -/
def renderedOriginalHtml (r : CleanupResultModel) : List Char :=
  ("<pre class=\"document-text\">".data)
    ++ formatDocumentText (some (annotateIssues (falsyOr r.original_content []) r.issues))
    ++ ("</pre>".data)

/-- Regex `[A-Z]`. -/
def isUpperB (c : Char) : Bool := decide ('A' ≤ c ∧ c ≤ 'Z')

/-- Regex `\d`. -/
def isDigitB (c : Char) : Bool := decide ('0' ≤ c ∧ c ≤ '9')

/-- ASCII upper-casing used for the case-insensitive `/i` regex test. -/
def upChar (c : Char) : Char :=
  if 'a' ≤ c ∧ c ≤ 'z' then Char.ofNat (c.toNat - 32) else c

/-- Structural scanner for `text.split(/\n\n+/)`.  In absorb mode (first
argument `true`) the scan is inside a separator run and swallows every
further newline (the greedy `+` of the regex); in normal mode a pair of
newlines opens a separator.  A non-newline character closes absorb mode and
is processed exactly as in normal mode. -/
def spAux : Bool → List Char → List (List Char)
  | _, [] => [[]]
  | true, '\n' :: rest => spAux true rest
  | true, c :: rest =>
    match spAux false rest with
    | [] => [[c]]
    | h :: t2 => (c :: h) :: t2
  | false, '\n' :: '\n' :: rest => [] :: spAux true rest
  | false, c :: rest =>
    match spAux false rest with
    | [] => [[c]]
    | h :: t2 => (c :: h) :: t2

/-- `text.split(/\n\n+/)`: split at each maximal run of two or more
newlines (leftmost match, greedy `+`). -/
def splitParas (l : List Char) : List (List Char) := spAux false l

/-- Regex test `/^[A-Z][A-Z\s]+$/` on a (trimmed) paragraph. -/
def isAllCapsHeading (p : List Char) : Bool :=
  match p with
  | [] => false
  | c :: rest => isUpperB c && !rest.isEmpty && rest.all (fun x => isUpperB x || isWsB x)

/-- Case-insensitive test that `p` starts with the word `w` followed by
optional whitespace and at least one digit (one alternative of
`/^(PASAL|ARTICLE|BAB|CHAPTER)\s*\d+/i`). -/
def ciWordThenNumber (w : List Char) (p : List Char) : Bool :=
  decide ((p.take w.length).map upChar = w) &&
    (match (p.drop w.length).dropWhile isWsB with
     | [] => false
     | c :: _ => isDigitB c)

/-- Regex test `/^(PASAL|ARTICLE|BAB|CHAPTER)\s*\d+/i` (the four alternatives
start with distinct letters, so at most one can match). -/
def isChapterHeading (p : List Char) : Bool :=
  ciWordThenNumber ("PASAL".data) p || ciWordThenNumber ("ARTICLE".data) p
    || ciWordThenNumber ("BAB".data) p || ciWordThenNumber ("CHAPTER".data) p

/-- Regex test `/^\d+\.\s/`: one or more digits, a dot, one whitespace. -/
def isNumberedStart (p : List Char) : Bool :=
  let ds := p.takeWhile isDigitB
  !ds.isEmpty &&
    (match p.drop ds.length with
     | '.' :: c :: _ => isWsB c
     | _ => false)

/-- One iteration of the `paragraphs.forEach` body of `convertTextToHtml`
(part_000 lines 1005-1018): trim, skip blanks, emit an `<h2>` or `<p>`
block.  Note the source escapes *after* replacing newlines with `<br>`, so
the injected `<br>` tags are themselves escaped. -/
def renderPara (para : List Char) : List Char :=
  if jsTrim para = [] then []
  else if isAllCapsHeading (jsTrim para) || isChapterHeading (jsTrim para) then
    ("<h2>".data) ++ escapeList (jsTrim para) ++ ("</h2>\n".data)
  else if isNumberedStart (jsTrim para) then
    ("<p>".data) ++ escapeList (jsTrim para) ++ ("</p>\n".data)
  else
    ("<p>".data) ++ escapeList (expandChar '\n' ("<br>".data) (jsTrim para)) ++ ("</p>\n".data)

/-- `convertTextToHtml(text)` (part_000 lines 993-1021). -/
def convertTextToHtml : Option (List Char) → List Char
  | none => "<p></p>".data
  | some t =>
    if t = [] then ("<p></p>".data)
    else if (jsTrim t).head? = some '<' then t
    else if (splitParas t).foldl (fun acc p => acc ++ renderPara p) [] = [] then
      ("<p></p>".data)
    else (splitParas t).foldl (fun acc p => acc ++ renderPara p) []

/-- The two editor languages. -/
inductive Lang where
  | indonesian
  | english
  deriving DecidableEq

/-- The mutable state touched by the document-editor logic
(part_000 lines 6-12 and 781-943): the cleanup buffers, the active editor
language, the live Quill surface (modelled by the HTML it holds, `none` when
no editor is live), the active document id, and the editor status line. -/
structure EditorUIState where
  cleanupResult : CleanupResultModel
  currentEditorLanguage : Lang
  editorInstance : Option (List Char)
  documentId : Option Nat
  statusText : List Char
  statusClass : List Char
  deriving DecidableEq

/-- Read the `edited_*` buffer of one language. -/
def getEdited (lang : Lang) (cr : CleanupResultModel) : Option (List Char) :=
  match lang with
  | .indonesian => cr.edited_indonesian
  | .english => cr.edited_english

/-- Write the `edited_*` buffer of one language. -/
def setEdited (lang : Lang) (h : List Char) (cr : CleanupResultModel) : CleanupResultModel :=
  match lang with
  | .indonesian => { cr with edited_indonesian := some h }
  | .english => { cr with edited_english := some h }

/-- The content picked by `initQuillEditor` (part_000 lines 829-831):
`edited_* || cleaned_* || ''` with JS falsy (`||`) fallback. -/
def editorContentFor (cr : CleanupResultModel) (lang : Lang) : List Char :=
  match lang with
  | .indonesian => falsyOr cr.edited_indonesian (falsyOr cr.cleaned_indonesian [])
  | .english => falsyOr cr.edited_english (falsyOr cr.cleaned_english [])

/-- The capture step at the top of `switchEditorLanguage`
(part_000 lines 886-893): if an editor surface is live, its serialized
content is written into the buffer of the currently active language. -/
def captureCurrent (s : EditorUIState) : CleanupResultModel :=
  match s.editorInstance with
  | none => s.cleanupResult
  | some h => setEdited s.currentEditorLanguage h s.cleanupResult

/-- `initQuillEditor()` (part_000 lines 824-865): destroy any live surface
and create one holding `convertTextToHtml` of the active buffer's content;
the surface is modelled as holding exactly the HTML pasted into it. -/
def initQuillEditor (s : EditorUIState) : EditorUIState :=
  { s with
    editorInstance :=
      some (convertTextToHtml (some (editorContentFor s.cleanupResult s.currentEditorLanguage))),
    statusText := "Ready".data,
    statusClass := [] }

/-- `switchEditorLanguage(lang)` (part_000 lines 884-904): capture the live
surface into the previous language's buffer, set the new language, and
re-initialize the surface. -/
def switchEditorLanguage (lang : Lang) (s : EditorUIState) : EditorUIState :=
  initQuillEditor
    { s with cleanupResult := captureCurrent s, currentEditorLanguage := lang }

/-- Modelled from the spec: the buffer selection the spec's §4.3 `activate`
contract prescribes, `edited* ?? cleaned* ?? ""` with *nullish* (`??`)
fallback, for comparison with the source's `||` selection
(`editorContentFor`). -/
def specNullishContentFor (cr : CleanupResultModel) (lang : Lang) : List Char :=
  match lang with
  | .indonesian => cr.edited_indonesian.getD (cr.cleaned_indonesian.getD [])
  | .english => cr.edited_english.getD (cr.cleaned_english.getD [])

/-- Outcome of the save round-trip as seen by `saveEditedDocument`:
`ok`, a non-ok HTTP response, or a thrown fetch error. -/
inductive SaveResponse where
  | ok
  | notOk
  | netError
  deriving DecidableEq

/-- `saveEditedDocument()` (part_000 lines 906-943), modelled as a function
of the response: early return when no editor or no document id; on success
write the surface content into the active language's buffer and set status
"Saved successfully"/"saved"; on any failure leave the buffers untouched and
set status "Error saving"/"error". -/
def saveEditedDocument (s : EditorUIState) (resp : SaveResponse) : EditorUIState :=
  match s.editorInstance, s.documentId with
  | some content, some _ =>
    match resp with
    | .ok =>
      { s with
        cleanupResult := setEdited s.currentEditorLanguage content s.cleanupResult,
        statusText := "Saved successfully".data,
        statusClass := "saved".data }
    | _ =>
      { s with statusText := "Error saving".data, statusClass := "error".data }
  | _, _ => s

/-- The session globals (part_000 lines 6-12) for the race analysis: each
cached stage artifact is represented by the document id it was produced
for. -/
structure SessionModel where
  documentId : Option Nat
  trainingModuleDoc : Option Nat
  complianceReportDoc : Option Nat
  cleanupResultDoc : Option Nat
  deriving DecidableEq

/-- Resumption points of the asynchronous stage handlers, each carrying the
document id the request was issued for and the id the returned artifact
reports. -/
inductive StageEvent where
  /-- The `startReviewBtn` handler resuming at part_000 line 381. -/
  | reviewRespOk (requestedDoc : Nat) (reportDoc : Nat)
  /-- `viewExistingReport` assigning `documentId` at part_000 line 272. -/
  | viewReportEnter (docId : Nat)
  /-- `viewExistingReport` resuming at part_000 line 276. -/
  | viewReportRespOk (docId : Nat) (reportDoc : Nat)
  /-- A module-creation handler resuming at part_000 line 183 or 529. -/
  | moduleRespOk (requestedDoc : Nat) (moduleDoc : Nat)
  /-- A cleanup handler resuming at part_000 line 160, 558 or 713. -/
  | cleanupRespOk (requestedDoc : Nat) (resultDoc : Nat)

/-- What each handler does to the session when its response arrives: every
assignment is unconditional — no handler compares the response's document
against the currently active `documentId`. -/
def applyStageEvent (s : SessionModel) : StageEvent → SessionModel
  | .reviewRespOk _ rd => { s with complianceReportDoc := some rd }
  | .viewReportEnter d => { s with documentId := some d }
  | .viewReportRespOk _ rd => { s with complianceReportDoc := some rd }
  | .moduleRespOk _ md => { s with trainingModuleDoc := some md }
  | .cleanupRespOk _ cd => { s with cleanupResultDoc := some cd }

/-- The screens reachable by `showSection`. -/
inductive UISection where
  | upload
  | processing
  | cleanup
  | moduleView
  | report
  | editor
  | historyList
  | documentsList
  deriving DecidableEq

/-- Outcome of one stage request: ok, non-ok HTTP response, or thrown
fetch/parse error. -/
inductive StageOutcome where
  | ok
  | notOk
  | netError
  deriving DecidableEq

/-- The `startProcessBtn` click handler (part_000 lines 133-197), as a
function of the three backend outcomes: upload failure surfaces an error and
returns to Upload; a successful cleanup fetch shows the Cleanup screen; a
non-ok or thrown cleanup fetch falls through to module creation; module
failure surfaces an error and returns to Upload.  Result: final session,
final section, and whether an error was surfaced (`alert`). -/
def startProcess (s : SessionModel) (uploadOutcome : StageOutcome) (uploadedId : Nat)
    (cleanupOutcome : StageOutcome) (moduleOutcome : StageOutcome) :
    SessionModel × UISection × Bool :=
  match uploadOutcome with
  | .notOk => (s, UISection.upload, true)
  | .netError => (s, UISection.upload, true)
  | .ok =>
    match cleanupOutcome with
    | .ok =>
      ({ s with documentId := some uploadedId, cleanupResultDoc := some uploadedId },
        UISection.cleanup, false)
    | _ =>
      match moduleOutcome with
      | .ok =>
        ({ s with documentId := some uploadedId, trainingModuleDoc := some uploadedId },
          UISection.moduleView, false)
      | _ => ({ s with documentId := some uploadedId }, UISection.upload, true)

/-- The score classification in `renderComplianceReport`
(part_000 lines 408-424, identical in src/frontend/app.js lines 218-234). -/
def scoreStatusLabel (score : Int) : List Char :=
  if 90 ≤ score then ("COMPLIANT".data)
  else if 70 ≤ score then ("MOSTLY COMPLIANT".data)
  else if 50 ≤ score then ("NEEDS REVIEW".data)
  else ("NON-COMPLIANT".data)

/-- The label rendered for a report, including the `report.compliance_score
|| 0` default (part_000 line 399). -/
def renderedStatusLabel (complianceScore : Option Int) : List Char :=
  scoreStatusLabel (complianceScore.getD 0)

/-- Concrete issue for the escaping-order analysis: its `original_text`
contains `<`. -/
def c1Issue : CleanupIssue :=
  { type := none, location := none,
    original_text := some ("x<y".data), rule := some ("r".data) }

/-- Concrete cleanup result whose base text contains that issue. -/
def c1Result : CleanupResultModel :=
  { original_content := some ("x<y!".data),
    cleaned_indonesian := none, cleaned_english := none,
    edited_indonesian := none, edited_english := none,
    issues := [c1Issue] }

/-- Initial session for the race analysis: document 1 is active. -/
def c2Session0 : SessionModel :=
  { documentId := some 1, trainingModuleDoc := none,
    complianceReportDoc := none, cleanupResultDoc := none }

/-- Editor state whose active-language buffer holds an *empty* edited string
next to a non-empty cleaned string (distinguishes `||` from `??`). -/
def c3State : EditorUIState :=
  { cleanupResult :=
      { original_content := none,
        cleaned_indonesian := some ("X".data), cleaned_english := none,
        edited_indonesian := some [], edited_english := none,
        issues := [] },
    currentEditorLanguage := Lang.english,
    editorInstance := none,
    documentId := some 7,
    statusText := [], statusClass := [] }

/-- Editor state with a live surface and a document id, for exercising the
save path. -/
def c4State : EditorUIState :=
  { cleanupResult :=
      { original_content := none,
        cleaned_indonesian := some ("teks".data), cleaned_english := none,
        edited_indonesian := none, edited_english := none,
        issues := [] },
    currentEditorLanguage := Lang.indonesian,
    editorInstance := some ("<p>E</p>".data),
    documentId := some 3,
    statusText := "Ready".data, statusClass := [] }

/-! Helper lemmas about the string primitives. -/

theorem dropWhile_append_single (p : Char → Bool) (c : Char) (hc : p c = false)
    (ys : List Char) : (ys ++ [c]).dropWhile p = ys.dropWhile p ++ [c] := by
  induction ys with
  | nil => simp [List.dropWhile_cons, hc]
  | cons y ys ih =>
    by_cases hy : p y
    · simp [List.dropWhile_cons, hy, ih]
    · simp [List.dropWhile_cons, hy]

theorem jsTrim_head_of_head (l : List Char) (c : Char) (h1 : l.head? = some c)
    (h2 : isWsB c = false) : (jsTrim l).head? = some c := by
  cases l with
  | nil => simp at h1
  | cons a rest =>
    simp at h1
    subst h1
    unfold jsTrim
    rw [List.dropWhile_cons, if_neg (by simp [h2])]
    rw [List.reverse_cons, dropWhile_append_single isWsB a h2, List.reverse_append]
    simp

theorem jsTrim_eq_nil (l : List Char) (h : ∀ x ∈ l, isWsB x = true) : jsTrim l = [] := by
  unfold jsTrim
  rw [List.dropWhile_eq_nil_iff.mpr h]
  simp

theorem spAux_nil (b : Bool) : spAux b [] = [[]] := by
  cases b <;> rfl

theorem spAux_true_nl (rest : List Char) :
    spAux true ('\n' :: rest) = spAux true rest := rfl

theorem spAux_false_two_nl (rest : List Char) :
    spAux false ('\n' :: '\n' :: rest) = [] :: spAux true rest := rfl

theorem spAux_true_cons (c : Char) (rest : List Char) (hc : ¬ c = '\n')
    (h : List Char) (t2 : List (List Char)) (heq : spAux false rest = h :: t2) :
    spAux true (c :: rest) = (c :: h) :: t2 := by
  rw [spAux.eq_def]
  split <;> simp_all

theorem spAux_false_cons (c : Char) (rest : List Char)
    (hne : ∀ rest1 : List Char, c = '\n' → rest = '\n' :: rest1 → False)
    (h : List Char) (t2 : List (List Char)) (heq : spAux false rest = h :: t2) :
    spAux false (c :: rest) = (c :: h) :: t2 := by
  rw [spAux.eq_def]
  split <;> simp_all

theorem spAux_ne_nil : ∀ (b : Bool) (l : List Char), spAux b l ≠ [] := by
  intro b l
  induction b, l using spAux.induct <;> simp_all [spAux]

theorem splitParas_ne_nil (l : List Char) : splitParas l ≠ [] :=
  spAux_ne_nil false l

theorem spAux_mem_pred (P : Char → Prop) :
    ∀ (b : Bool) (l : List Char), (∀ c ∈ l, P c) →
      ∀ piece ∈ spAux b l, ∀ c ∈ piece, P c := by
  intro b l
  induction b, l using spAux.induct with
  | case1 b =>
    intro hl piece hp c hc
    rw [spAux_nil] at hp
    simp at hp
    subst hp
    simp at hc
  | case2 rest ih =>
    intro hl piece hp c hc
    rw [spAux_true_nl] at hp
    exact ih (fun x hx => hl x (by simp [hx])) piece hp c hc
  | case3 c0 rest hc0 heq ih =>
    intro hl piece hp c hc
    exact absurd heq (spAux_ne_nil false rest)
  | case4 c0 rest hc0 h t2 heq ih =>
    intro hl piece hp c hc
    rw [spAux_true_cons c0 rest hc0 h t2 heq] at hp
    have hl2 : ∀ x ∈ rest, P x := fun x hx => hl x (by simp [hx])
    rcases List.mem_cons.mp hp with h1 | h1
    · subst h1
      rcases List.mem_cons.mp hc with h2 | h2
      · subst h2
        exact hl c (by simp)
      · exact ih hl2 h (by rw [heq]; simp) c h2
    · exact ih hl2 piece (by rw [heq]; simp [h1]) c hc
  | case5 rest ih =>
    intro hl piece hp c hc
    rw [spAux_false_two_nl] at hp
    rcases List.mem_cons.mp hp with h | h
    · subst h
      simp at hc
    · exact ih (fun x hx => hl x (by simp [hx])) piece h c hc
  | case6 c0 rest hne heq ih =>
    intro hl piece hp c hc
    exact absurd heq (spAux_ne_nil false rest)
  | case7 c0 rest hne h t2 heq ih =>
    intro hl piece hp c hc
    rw [spAux_false_cons c0 rest hne h t2 heq] at hp
    have hl2 : ∀ x ∈ rest, P x := fun x hx => hl x (by simp [hx])
    rcases List.mem_cons.mp hp with h1 | h1
    · subst h1
      rcases List.mem_cons.mp hc with h2 | h2
      · subst h2
        exact hl c (by simp)
      · exact ih hl2 h (by rw [heq]; simp) c h2
    · exact ih hl2 piece (by rw [heq]; simp [h1]) c hc

theorem splitParas_mem_pred (P : Char → Prop) (l : List Char) (hl : ∀ c ∈ l, P c) :
    ∀ piece ∈ splitParas l, ∀ c ∈ piece, P c :=
  spAux_mem_pred P false l hl

theorem foldl_append_flatten (f : List Char → List Char) (paras : List (List Char)) :
    ∀ acc : List Char,
      paras.foldl (fun a p => a ++ f p) acc = acc ++ (paras.map f).flatten := by
  induction paras with
  | nil => intro acc; simp
  | cons p ps ih => intro acc; simp [ih, List.append_assoc]

theorem flatten_filter_nonempty (l : List (List Char)) :
    (l.filter (fun b => !b.isEmpty)).flatten = l.flatten := by
  induction l with
  | nil => rfl
  | cons b bs ih =>
    by_cases hb : b.isEmpty
    · have hb' : b = [] := by simpa using hb
      subst hb'
      simp [List.filter_cons, ih]
    · simp [List.filter_cons, hb, ih]

theorem flatten_eq_nil_of_all (bs : List (List Char)) (h : ∀ b ∈ bs, b = []) :
    bs.flatten = [] := by
  induction bs with
  | nil => rfl
  | cons b bs ih =>
    have hb : b = [] := h b (by simp)
    subst hb
    simpa using ih (fun x hx => h x (by simp [hx]))

theorem flatten_head_lt (bs : List (List Char))
    (h : ∀ b ∈ bs, b = [] ∨ b.head? = some '<') (hne : bs.flatten ≠ []) :
    bs.flatten.head? = some '<' := by
  induction bs with
  | nil => simp at hne
  | cons b bs ih =>
    rcases h b (by simp) with hb | hb
    · subst hb
      simp only [List.flatten_cons, List.nil_append] at hne ⊢
      exact ih (fun x hx => h x (by simp [hx])) hne
    · cases b with
      | nil => simp at hb
      | cons x xs =>
        simp only [List.head?_cons, Option.some.injEq] at hb
        subst hb
        rfl

theorem renderPara_head (p : List Char) :
    renderPara p = [] ∨ (renderPara p).head? = some '<' := by
  unfold renderPara
  split_ifs
  · exact Or.inl rfl
  · exact Or.inr rfl
  · exact Or.inr rfl
  · exact Or.inr rfl

theorem renderPara_shape (p : List Char) :
    renderPara p = [] ∨ (("<h2>".data) <+: renderPara p ∨ ("<p>".data) <+: renderPara p) := by
  unfold renderPara
  split_ifs
  · exact Or.inl rfl
  · exact Or.inr (Or.inl (by rw [List.append_assoc]; exact List.prefix_append _ _))
  · exact Or.inr (Or.inr (by rw [List.append_assoc]; exact List.prefix_append _ _))
  · exact Or.inr (Or.inr (by rw [List.append_assoc]; exact List.prefix_append _ _))

theorem renderPara_of_allWs (p : List Char) (h : ∀ c ∈ p, isWsB c = true) :
    renderPara p = [] := by
  unfold renderPara
  rw [if_pos (jsTrim_eq_nil p h)]

theorem ctth_passthrough (t : List Char) (h : (jsTrim t).head? = some '<') :
    convertTextToHtml (some t) = t := by
  have ht : t ≠ [] := by
    intro h0
    subst h0
    simp [jsTrim] at h
  rw [convertTextToHtml, if_neg ht, if_pos h]

theorem ctth_trim_head (o : Option (List Char)) :
    (jsTrim (convertTextToHtml o)).head? = some '<' := by
  have hp : (jsTrim ("<p></p>".data)).head? = some '<' := by decide
  match o with
  | none => exact hp
  | some t =>
    by_cases h0 : t = []
    · subst h0
      exact hp
    · by_cases h1 : (jsTrim t).head? = some '<'
      · rw [ctth_passthrough t h1]
        exact h1
      · by_cases h2 : (splitParas t).foldl (fun acc p => acc ++ renderPara p) [] = []
        · rw [convertTextToHtml, if_neg h0, if_neg h1, if_pos h2]
          exact hp
        · rw [convertTextToHtml, if_neg h0, if_neg h1, if_neg h2]
          have hflat : (splitParas t).foldl (fun acc p => acc ++ renderPara p) []
              = ((splitParas t).map renderPara).flatten := by
            simpa using foldl_append_flatten renderPara (splitParas t) []
          have hhead :
              ((splitParas t).foldl (fun acc p => acc ++ renderPara p) []).head? = some '<' := by
            rw [hflat]
            apply flatten_head_lt
            · intro b hb
              rcases List.mem_map.mp hb with ⟨piece, hpmem, hpe⟩
              rw [← hpe]
              exact renderPara_head piece
            · rw [← hflat]
              exact h2
          exact jsTrim_head_of_head _ '<' hhead (by decide)

theorem ctth_ne_nil (o : Option (List Char)) : convertTextToHtml o ≠ [] := by
  intro h
  have hh := ctth_trim_head o
  rw [h] at hh
  simp [jsTrim] at hh

theorem ctth_idem (o : Option (List Char)) :
    convertTextToHtml (some (convertTextToHtml o)) = convertTextToHtml o :=
  ctth_passthrough _ (ctth_trim_head o)

theorem firstOccIdx_eq (t : List Char) :
    ∀ (k : Nat) (s : List Char), t <+: s.drop k → (∀ j, j < k → ¬ t <+: s.drop j) →
      firstOccIdx s t = some k := by
  intro k
  induction k with
  | zero =>
    intro s h1 _
    rw [List.drop_zero] at h1
    rw [firstOccIdx.eq_def, if_pos (List.isPrefixOf_iff_prefix.mpr h1)]
  | succ k ih =>
    intro s h1 h2
    have hns : ¬ t <+: s := by
      have hx := h2 0 (Nat.succ_pos k)
      simpa using hx
    cases s with
    | nil =>
      exact absurd (by simpa using h1) hns
    | cons a s' =>
      rw [firstOccIdx.eq_def, if_neg (by simpa [List.isPrefixOf_iff_prefix] using hns)]
      have hrec : firstOccIdx s' t = some k := by
        apply ih
        · simpa using h1
        · intro j hj
          have hy := h2 (j + 1) (by omega)
          simpa using hy
      show Option.map (fun x => x + 1) (firstOccIdx s' t) = some (k + 1)
      rw [hrec]
      rfl

/-! Helper lemmas about the editor-content selection. -/

theorem falsyOr_some_ne (v : List Char) (b : List Char) (h : v ≠ []) :
    falsyOr (some v) b = v := by
  simp [falsyOr, h]

theorem editorContentFor_setEdited_self (l : Lang) (v : List Char) (cr : CleanupResultModel)
    (h : v ≠ []) : editorContentFor (setEdited l v cr) l = v := by
  cases l <;> simp [editorContentFor, setEdited, falsyOr, h]

theorem editorContentFor_setEdited_other (l o : Lang) (v : List Char) (cr : CleanupResultModel)
    (h : ¬ o = l) : editorContentFor (setEdited o v cr) l = editorContentFor cr l := by
  cases l <;> cases o <;> simp_all [editorContentFor, setEdited]

theorem switch_roundtrip_core (cr : CleanupResultModel) (l o : Lang) :
    convertTextToHtml (some (editorContentFor
      (setEdited o
        (convertTextToHtml (some (editorContentFor
          (setEdited l (convertTextToHtml (some (editorContentFor cr l))) cr) o)))
        (setEdited l (convertTextToHtml (some (editorContentFor cr l))) cr)) l))
    = convertTextToHtml (some (editorContentFor cr l)) := by
  set e1 := convertTextToHtml (some (editorContentFor cr l)) with he1def
  have he1 : e1 ≠ [] := by
    rw [he1def]
    exact ctth_ne_nil _
  have hidem : convertTextToHtml (some e1) = e1 := by
    rw [he1def]
    exact ctth_idem _
  by_cases ho : o = l
  · subst ho
    have h1 : editorContentFor (setEdited o e1 cr) o = e1 :=
      editorContentFor_setEdited_self o e1 cr he1
    rw [h1, hidem]
    have h2 : editorContentFor (setEdited o e1 (setEdited o e1 cr)) o = e1 :=
      editorContentFor_setEdited_self o e1 _ he1
    rw [h2, hidem]
  · rw [editorContentFor_setEdited_other l o _ _ ho,
      editorContentFor_setEdited_self l e1 cr he1, hidem]

/-! Claim theorems. -/

/-- C1: the claim says `renderCleanupResults` encodes the HTML-significant
characters of the base `original_content` *before* injecting highlight
markup, so that the injected markup survives in the final rendered string.
The code does the opposite: the `<mark>` wrapper is injected into the raw
text (the issue *is* located there, first conjunct), and
`formatDocumentText` then escapes the whole annotated string, so the final
rendered HTML contains the escaped text `&lt;mark ...` and no surviving
`<mark` markup (remaining conjuncts). -/
theorem claim_c1_markup_escaped_after_injection :
    containsSub (annotateIssues ("x<y!".data) [c1Issue]) ("<mark".data) = true ∧
    renderedOriginalHtml c1Result
      = ("<pre class=\"document-text\">&lt;mark class=\"highlight-general\" title=\"r\"&gt;x&lt;y&lt;/mark&gt;!</pre>").data ∧
    containsSub (renderedOriginalHtml c1Result) ("<mark".data) = false ∧
    containsSub (renderedOriginalHtml c1Result) ("&lt;mark".data) = true := by
  refine ⟨by decide, by decide, by decide, by decide⟩

/-- C2: the claim says every stage response handler checks that the response
is still for the active `documentId` before mutating session state.  The
handlers mutate unconditionally (last conjunct), so in the interleaving
where a review response requested for document 1 arrives after
`viewExistingReport` has made document 2 active, the stale report for
document 1 is still written into the session (first three conjuncts). -/
theorem claim_c2_stale_response_mutates_session :
    (applyStageEvent (applyStageEvent c2Session0 (StageEvent.viewReportEnter 2))
        (StageEvent.reviewRespOk 1 1)).documentId = some 2 ∧
    (applyStageEvent (applyStageEvent c2Session0 (StageEvent.viewReportEnter 2))
        (StageEvent.reviewRespOk 1 1)).complianceReportDoc = some 1 ∧
    (applyStageEvent (applyStageEvent c2Session0 (StageEvent.viewReportEnter 2))
        (StageEvent.reviewRespOk 1 1)).complianceReportDoc
      ≠ (applyStageEvent (applyStageEvent c2Session0 (StageEvent.viewReportEnter 2))
        (StageEvent.reviewRespOk 1 1)).documentId ∧
    (∀ (s : SessionModel) (reqDoc reportDoc : Nat),
      applyStageEvent s (StageEvent.reviewRespOk reqDoc reportDoc)
        = { s with complianceReportDoc := some reportDoc }) := by
  exact ⟨rfl, rfl, by decide, fun s reqDoc reportDoc => rfl⟩

/-- C3 (counterexample): the claim describes the re-initialization content
as `edited* ?? cleaned* ?? ""` (nullish fallback).  The code uses JS `||`
(falsy fallback): with an *empty* edited buffer next to a non-empty cleaned
buffer, the surface is initialized from the cleaned text, while the spec's
nullish selection would pick the empty edited string — and the two
initializations provably differ. -/
theorem claim_c3_nullish_pick_counterexample :
    (switchEditorLanguage Lang.indonesian c3State).editorInstance
      = some (convertTextToHtml (some ("X".data))) ∧
    editorContentFor (captureCurrent c3State) Lang.indonesian = "X".data ∧
    specNullishContentFor (captureCurrent c3State) Lang.indonesian = [] ∧
    convertTextToHtml (some ("X".data)) ≠ convertTextToHtml (some ([] : List Char)) := by
  refine ⟨by decide, by decide, by decide, by decide⟩

/-- C3 (amended): `switchEditorLanguage` first captures the live surface's
content into the buffer of the previously active language (first conjunct:
the previous language's edited buffer afterwards holds the captured surface
content when a surface was live, and is untouched otherwise), sets the new
language (second conjunct), and re-initializes the surface from the new
active buffer with falsy preference `edited || cleaned || ''` promoted by
`convertTextToHtml` (third conjunct); consequently
`activate(lang); activate(other); activate(lang)` with no intervening edits
restores exactly the surface content present after the first
`activate(lang)` (fourth conjunct). -/
theorem claim_c3_switch_roundtrip :
    ∀ (s : EditorUIState) (l o : Lang),
      getEdited s.currentEditorLanguage ((switchEditorLanguage l s).cleanupResult)
        = (match s.editorInstance with
           | some h => some h
           | none => getEdited s.currentEditorLanguage s.cleanupResult) ∧
      (switchEditorLanguage l s).currentEditorLanguage = l ∧
      (switchEditorLanguage l s).editorInstance
        = some (convertTextToHtml (some (editorContentFor (captureCurrent s) l))) ∧
      (switchEditorLanguage l (switchEditorLanguage o (switchEditorLanguage l s))).editorInstance
        = (switchEditorLanguage l s).editorInstance := by
  intro s l o
  refine ⟨?_, rfl, rfl, ?_⟩
  · cases hE : s.editorInstance with
    | none => simp [switchEditorLanguage, initQuillEditor, captureCurrent, hE]
    | some h =>
      cases hL : s.currentEditorLanguage <;>
        simp [switchEditorLanguage, initQuillEditor, captureCurrent, getEdited, setEdited, hE, hL]
  · have hcap1 : captureCurrent (switchEditorLanguage l s)
        = setEdited l (convertTextToHtml (some (editorContentFor (captureCurrent s) l)))
            (captureCurrent s) := rfl
    have hcap2 : captureCurrent (switchEditorLanguage o (switchEditorLanguage l s))
        = setEdited o (convertTextToHtml (some (editorContentFor
              (captureCurrent (switchEditorLanguage l s)) o)))
            (captureCurrent (switchEditorLanguage l s)) := rfl
    show some (convertTextToHtml (some (editorContentFor
        (captureCurrent (switchEditorLanguage o (switchEditorLanguage l s))) l)))
      = some (convertTextToHtml (some (editorContentFor (captureCurrent s) l)))
    rw [hcap2, hcap1]
    exact congrArg some (switch_roundtrip_core (captureCurrent s) l o)

/-- C4: a save attempt that fails at transport (non-ok response or thrown
error) leaves both language buffers and the live surface unchanged and sets
the editor status to the error state, never to the saved state. -/
theorem claim_c4_save_failure_keeps_edits :
    ∀ (s : EditorUIState) (content : List Char) (d : Nat) (resp : SaveResponse),
      s.editorInstance = some content → s.documentId = some d → resp ≠ SaveResponse.ok →
      (saveEditedDocument s resp).cleanupResult = s.cleanupResult ∧
      (saveEditedDocument s resp).editorInstance = s.editorInstance ∧
      (saveEditedDocument s resp).statusText = "Error saving".data ∧
      (saveEditedDocument s resp).statusClass = "error".data ∧
      (saveEditedDocument s resp).statusText ≠ "Saved successfully".data ∧
      (saveEditedDocument s resp).statusClass ≠ "saved".data := by
  intro s content d resp hE hD hresp
  cases resp with
  | ok => exact absurd rfl hresp
  | notOk =>
    refine ⟨?_, ?_, ?_, ?_, ?_, ?_⟩ <;> simp [saveEditedDocument, hE, hD]
  | netError =>
    refine ⟨?_, ?_, ?_, ?_, ?_, ?_⟩ <;> simp [saveEditedDocument, hE, hD]

/-- C4 witness: the theorem applied to a concrete editor state with a live
surface, a document id, and a non-ok save response. -/
theorem claim_c4_witness :
    c4State.editorInstance = some ("<p>E</p>".data) ∧
    c4State.documentId = some 3 ∧
    SaveResponse.notOk ≠ SaveResponse.ok ∧
    (saveEditedDocument c4State SaveResponse.notOk).cleanupResult = c4State.cleanupResult ∧
    (saveEditedDocument c4State SaveResponse.notOk).statusText = "Error saving".data ∧
    (saveEditedDocument c4State SaveResponse.notOk).statusText ≠ "Saved successfully".data := by
  have h := claim_c4_save_failure_keeps_edits c4State ("<p>E</p>".data) 3 SaveResponse.notOk
    rfl rfl (by decide)
  exact ⟨rfl, rfl, by decide, h.1, h.2.2.1, h.2.2.2.2.1⟩

/-- C5: the report renderer classifies a compliance score as COMPLIANT for
score ≥ 90, MOSTLY COMPLIANT for 70 ≤ score < 90, NEEDS REVIEW for
50 ≤ score < 70, and NON-COMPLIANT for score < 50, with the boundary values
90/70/50 inclusive on the upper branch; `renderedStatusLabel` ties this to
the `compliance_score || 0` default of `renderComplianceReport`. -/
theorem claim_c5_score_classification :
    ∀ score : Int,
      (90 ≤ score → scoreStatusLabel score = "COMPLIANT".data) ∧
      (70 ≤ score → score < 90 → scoreStatusLabel score = "MOSTLY COMPLIANT".data) ∧
      (50 ≤ score → score < 70 → scoreStatusLabel score = "NEEDS REVIEW".data) ∧
      (score < 50 → scoreStatusLabel score = "NON-COMPLIANT".data) ∧
      renderedStatusLabel (some score) = scoreStatusLabel score := by
  intro score
  refine ⟨?_, ?_, ?_, ?_, rfl⟩
  · intro h
    unfold scoreStatusLabel
    rw [if_pos h]
  · intro h1 h2
    unfold scoreStatusLabel
    rw [if_neg (by omega), if_pos h1]
  · intro h1 h2
    unfold scoreStatusLabel
    rw [if_neg (by omega), if_neg (by omega), if_pos h1]
  · intro h
    unfold scoreStatusLabel
    rw [if_neg (by omega), if_neg (by omega), if_neg (by omega)]

/-- C5 witness: the theorem applied at the spec's sample scores 95, 75, 55,
30 and at the boundary values 90, 70, 50. -/
theorem claim_c5_witness :
    scoreStatusLabel 95 = "COMPLIANT".data ∧
    scoreStatusLabel 75 = "MOSTLY COMPLIANT".data ∧
    scoreStatusLabel 55 = "NEEDS REVIEW".data ∧
    scoreStatusLabel 30 = "NON-COMPLIANT".data ∧
    scoreStatusLabel 90 = "COMPLIANT".data ∧
    scoreStatusLabel 70 = "MOSTLY COMPLIANT".data ∧
    scoreStatusLabel 50 = "NEEDS REVIEW".data :=
  ⟨(claim_c5_score_classification 95).1 (by decide),
   (claim_c5_score_classification 75).2.1 (by decide) (by decide),
   (claim_c5_score_classification 55).2.2.1 (by decide) (by decide),
   (claim_c5_score_classification 30).2.2.2.1 (by decide),
   (claim_c5_score_classification 90).1 (by decide),
   (claim_c5_score_classification 70).2.1 (by decide) (by decide),
   (claim_c5_score_classification 50).2.2.1 (by decide) (by decide)⟩

/-- C6: in the upload workflow, an upload failure surfaces an error and
returns to Upload (conjuncts 4 and 5); a failed cleanup fetch (non-ok or
thrown) does not abort — the workflow proceeds directly to module creation,
and on module success shows the Module screen with no error surfaced
(conjuncts 1 and 2); a module failure after cleanup absence surfaces an
error and returns to Upload (conjunct 3); a successful cleanup fetch shows
the Cleanup screen instead (conjunct 6). -/
theorem claim_c6_cleanup_absence_falls_through :
    ∀ (s : SessionModel) (id : Nat) (c m : StageOutcome),
      (startProcess s StageOutcome.ok id StageOutcome.notOk StageOutcome.ok
        = ({ s with documentId := some id, trainingModuleDoc := some id },
            UISection.moduleView, false)) ∧
      (startProcess s StageOutcome.ok id StageOutcome.netError StageOutcome.ok
        = ({ s with documentId := some id, trainingModuleDoc := some id },
            UISection.moduleView, false)) ∧
      (c ≠ StageOutcome.ok → m ≠ StageOutcome.ok →
        startProcess s StageOutcome.ok id c m
          = ({ s with documentId := some id }, UISection.upload, true)) ∧
      (startProcess s StageOutcome.notOk id c m = (s, UISection.upload, true)) ∧
      (startProcess s StageOutcome.netError id c m = (s, UISection.upload, true)) ∧
      (startProcess s StageOutcome.ok id StageOutcome.ok m
        = ({ s with documentId := some id, cleanupResultDoc := some id },
            UISection.cleanup, false)) := by
  intro s id c m
  refine ⟨rfl, rfl, ?_, rfl, rfl, rfl⟩
  intro hc hm
  cases c with
  | ok => exact absurd rfl hc
  | notOk =>
    cases m with
    | ok => exact absurd rfl hm
    | notOk => rfl
    | netError => rfl
  | netError =>
    cases m with
    | ok => exact absurd rfl hm
    | notOk => rfl
    | netError => rfl

/-- C6 witness: the theorem applied to a concrete empty session, a non-ok
cleanup fetch, and both module outcomes. -/
theorem claim_c6_witness :
    StageOutcome.notOk ≠ StageOutcome.ok ∧
    startProcess (⟨none, none, none, none⟩ : SessionModel)
        StageOutcome.ok 9 StageOutcome.notOk StageOutcome.notOk
      = (⟨some 9, none, none, none⟩, UISection.upload, true) ∧
    startProcess (⟨none, none, none, none⟩ : SessionModel)
        StageOutcome.ok 9 StageOutcome.notOk StageOutcome.ok
      = (⟨some 9, some 9, none, none⟩, UISection.moduleView, false) :=
  ⟨by decide,
   (claim_c6_cleanup_absence_falls_through ⟨none, none, none, none⟩ 9
      StageOutcome.notOk StageOutcome.notOk).2.2.1 (by decide) (by decide),
   (claim_c6_cleanup_absence_falls_through ⟨none, none, none, none⟩ 9
      StageOutcome.notOk StageOutcome.ok).1⟩

/-- C7: each per-issue replacement in the overlay loop is a single
first-occurrence substring replacement — when the issue text occurs at
position `p.length` and nowhere earlier, only that occurrence is wrapped and
any later occurrence is left verbatim (first conjunct) — and issues are
processed in issue-list order (second conjunct). -/
theorem claim_c7_first_occurrence_only :
    (∀ (p m q t : List Char) (i : CleanupIssue),
      i.original_text = some t → t ≠ [] →
      (∀ j, j < p.length → ¬ t <+: (p ++ t ++ m ++ t ++ q).drop j) →
      annotateIssues (p ++ t ++ m ++ t ++ q) [i]
        = p ++ markWrapFor i ++ m ++ t ++ q) ∧
    (∀ (text : List Char) (i : CleanupIssue) (rest : List CleanupIssue),
      annotateIssues text (i :: rest) = annotateIssues (applyIssue text i) rest) := by
  constructor
  · intro p m q t i hot ht hfirst
    have ht5 : p ++ t ++ m ++ t ++ q = p ++ (t ++ (m ++ (t ++ q))) := by
      simp [List.append_assoc]
    have hocc : firstOccIdx (p ++ t ++ m ++ t ++ q) t = some p.length := by
      apply firstOccIdx_eq
      · rw [ht5, List.drop_left]
        exact List.prefix_append t _
      · exact hfirst
    show applyIssue (p ++ t ++ m ++ t ++ q) i = _
    rw [applyIssue, hot]
    simp only [if_neg ht]
    rw [replaceFirst, hocc]
    show (p ++ t ++ m ++ t ++ q).take p.length ++ markWrapFor i
        ++ (p ++ t ++ m ++ t ++ q).drop (p.length + t.length)
      = p ++ markWrapFor i ++ m ++ t ++ q
    have htake : (p ++ t ++ m ++ t ++ q).take p.length = p := by
      rw [ht5]
      exact List.take_left p _
    have hdrop : (p ++ t ++ m ++ t ++ q).drop (p.length + t.length) = m ++ (t ++ q) := by
      have h2 : p ++ t ++ m ++ t ++ q = (p ++ t) ++ (m ++ (t ++ q)) := by
        simp [List.append_assoc]
      rw [h2, show p.length + t.length = (p ++ t).length by simp, List.drop_left]
    rw [htake, hdrop]
    simp [List.append_assoc]
  · intro text i rest
    rfl

/-- C7 witness: the theorem applied to the base text `Abc-bc`, in which the
issue text `bc` occurs twice; only the first occurrence is wrapped. -/
theorem claim_c7_witness :
    (⟨none, none, some ("bc".data), none⟩ : CleanupIssue).original_text = some ("bc".data) ∧
    annotateIssues (("A".data) ++ ("bc".data) ++ ("-".data) ++ ("bc".data) ++ ([] : List Char))
        [⟨none, none, some ("bc".data), none⟩]
      = ("A".data) ++ markWrapFor ⟨none, none, some ("bc".data), none⟩
          ++ ("-".data) ++ ("bc".data) ++ ([] : List Char) := by
  refine ⟨rfl, ?_⟩
  exact claim_c7_first_occurrence_only.1 ("A".data) ("-".data) ([] : List Char) ("bc".data)
    ⟨none, none, some ("bc".data), none⟩ rfl (by decide) (by decide)

/-- C8: `truncateText` with limit 100 returns strings of length at most 100
unchanged, truncates longer strings to exactly the first 100 characters plus
the `...` marker, and degrades to the empty string on null input. -/
theorem claim_c8_truncate_text :
    (∀ t : List Char, t.length ≤ 100 → truncateText (some t) 100 = t) ∧
    (∀ t : List Char, 100 < t.length →
      truncateText (some t) 100 = t.take 100 ++ ("...".data)) ∧
    truncateText none 100 = [] := by
  refine ⟨?_, ?_, rfl⟩
  · intro t h
    by_cases h0 : t = []
    · subst h0
      rfl
    · simp [truncateText, h0, h]
  · intro t h
    have h0 : t ≠ [] := by
      intro h0
      subst h0
      simp at h
    simp [truncateText, h0, Nat.not_le.mpr h]

/-- C8 witness: the theorem applied to a short string, a 101-character
string, and the null input. -/
theorem claim_c8_witness :
    ("hi".data).length ≤ 100 ∧
    truncateText (some ("hi".data)) 100 = "hi".data ∧
    100 < (List.replicate 101 'a').length ∧
    truncateText (some (List.replicate 101 'a')) 100
      = (List.replicate 101 'a').take 100 ++ ("...".data) ∧
    truncateText none 100 = [] :=
  ⟨by decide,
   claim_c8_truncate_text.1 ("hi".data) (by decide),
   by decide,
   claim_c8_truncate_text.2.1 (List.replicate 101 'a') (by decide),
   claim_c8_truncate_text.2.2⟩

/-- C9: `formatDocumentText` escapes `<` and `>` but not `&`, so it is not
injective: the distinct inputs `<` and `&lt;` both render as `&lt;`;
consequently stripping markup from the rendered display cannot in general
decode back to the original text. -/
theorem claim_c9_format_not_injective :
    formatDocumentText (some ("<".data)) = "&lt;".data ∧
    formatDocumentText (some ("&lt;".data)) = "&lt;".data ∧
    formatDocumentText (some ("&".data)) = "&".data ∧
    ("<".data : List Char) ≠ "&lt;".data ∧
    ¬ Function.Injective (fun t : List Char => formatDocumentText (some t)) := by
  refine ⟨by decide, by decide, by decide, by decide, ?_⟩
  intro hinj
  have h : ("<".data : List Char) = "&lt;".data := hinj (by decide)
  exact absurd h (by decide)

/-- C10: `convertTextToHtml` never returns the empty string (conjunct 1);
null, empty and whitespace-only inputs yield `<p></p>` (conjuncts 2-4); an
input whose trimmed value starts with `<` is returned unchanged (conjunct
5); every other input yields a non-empty concatenation of `<h2>`/`<p>`
blocks built from the blank-line-separated chunks (conjunct 6). -/
theorem claim_c10_convert_text_nonempty :
    (∀ o : Option (List Char), convertTextToHtml o ≠ []) ∧
    convertTextToHtml none = "<p></p>".data ∧
    convertTextToHtml (some []) = "<p></p>".data ∧
    (∀ s : List Char, (∀ c ∈ s, isWsB c = true) →
      convertTextToHtml (some s) = "<p></p>".data) ∧
    (∀ s : List Char, (jsTrim s).head? = some '<' → convertTextToHtml (some s) = s) ∧
    (∀ s : List Char, s ≠ [] → (jsTrim s).head? ≠ some '<' →
      ∃ bs : List (List Char),
        convertTextToHtml (some s) = bs.flatten ∧ bs ≠ [] ∧
        (∀ b ∈ bs, ("<h2>".data) <+: b ∨ ("<p>".data) <+: b) ∧
        (bs = ((splitParas s).map renderPara).filter (fun b => !b.isEmpty) ∨
          bs = [("<p></p>".data)])) := by
  refine ⟨ctth_ne_nil, rfl, rfl, ?_, ctth_passthrough, ?_⟩
  · intro s hws
    by_cases h0 : s = []
    · subst h0
      rfl
    · have htrim : jsTrim s = [] := jsTrim_eq_nil s hws
      have hfold : (splitParas s).foldl (fun acc p => acc ++ renderPara p) [] = [] := by
        rw [show (splitParas s).foldl (fun acc p => acc ++ renderPara p) []
            = ((splitParas s).map renderPara).flatten from by
          simpa using foldl_append_flatten renderPara (splitParas s) []]
        apply flatten_eq_nil_of_all
        intro b hb
        rcases List.mem_map.mp hb with ⟨piece, hpmem, hpe⟩
        rw [← hpe]
        exact renderPara_of_allWs piece
          (fun c hc => splitParas_mem_pred (fun c => isWsB c = true) s hws piece hpmem c hc)
      rw [convertTextToHtml, if_neg h0, if_neg (by rw [htrim]; simp), if_pos hfold]
  · intro s hne hlt
    have hfold : (splitParas s).foldl (fun acc p => acc ++ renderPara p) []
        = ((splitParas s).map renderPara).flatten := by
      simpa using foldl_append_flatten renderPara (splitParas s) []
    by_cases hh : (splitParas s).foldl (fun acc p => acc ++ renderPara p) [] = []
    · refine ⟨[("<p></p>".data)], ?_, by simp, ?_, Or.inr rfl⟩
      · rw [convertTextToHtml, if_neg hne, if_neg hlt, if_pos hh]
        simp
      · intro b hb
        simp at hb
        subst hb
        exact Or.inr (by decide)
    · refine ⟨((splitParas s).map renderPara).filter (fun b => !b.isEmpty), ?_, ?_, ?_,
        Or.inl rfl⟩
      · rw [convertTextToHtml, if_neg hne, if_neg hlt, if_neg hh,
          flatten_filter_nonempty, ← hfold]
      · intro hbs
        apply hh
        rw [hfold, ← flatten_filter_nonempty, hbs]
        rfl
      · intro b hb
        have hb2 := List.mem_filter.mp hb
        rcases List.mem_map.mp hb2.1 with ⟨piece, hpmem, hpe⟩
        rcases renderPara_shape piece with h1 | h1
        · exfalso
          have := hb2.2
          rw [← hpe, h1] at this
          simp at this
        · rw [← hpe]
          exact h1

/-- C10 witness: the theorem applied to a whitespace-only input, an input
that already looks like HTML, and a plain all-caps heading input. -/
theorem claim_c10_witness :
    convertTextToHtml (some (" \n ".data)) = "<p></p>".data ∧
    convertTextToHtml (some ("  <div>hi".data)) = "  <div>hi".data ∧
    (∃ bs : List (List Char),
      convertTextToHtml (some ("HELLO WORLD".data)) = bs.flatten ∧ bs ≠ [] ∧
      (∀ b ∈ bs, ("<h2>".data) <+: b ∨ ("<p>".data) <+: b) ∧
      (bs = ((splitParas ("HELLO WORLD".data)).map renderPara).filter (fun b => !b.isEmpty) ∨
        bs = [("<p></p>".data)])) :=
  ⟨claim_c10_convert_text_nonempty.2.2.2.1 (" \n ".data) (by decide),
   claim_c10_convert_text_nonempty.2.2.2.2.1 ("  <div>hi".data) (by decide),
   claim_c10_convert_text_nonempty.2.2.2.2.2 ("HELLO WORLD".data) (by decide) (by decide)⟩
